import Mathlib

/-!
Shallow embedding of `spencer-sullivan/file_system_api`
(`src/app.py`, `src/blueprints/file_system_endpoints.py`).

Paths are modelled as lists of components relative to the filesystem
root `/` (so `/r/a` is `["r", "a"]`).  The filesystem is an association
list from absolute paths to nodes; a node is a regular file (text or
raw bytes), a directory, or a symlink whose target is stored as an
absolute path.  `pathlib.Path.resolve()` / `os.path.realpath` (in its
default non-strict mode) is modelled by `resolveGo`, which walks the
components left to right, collapsing `.` and `..` and following
symlinks, with a fuel bound standing in for the OS symlink-loop limit.
The three Flask view functions are embedded as `list_files`,
`create_or_update_file` and `delete_file`; filesystem primitives that
can raise uncaught OS errors (mkdir on a non-directory, open("w") on a
directory, shutil.rmtree on a symlink) make the handlers return `none`,
standing for an unhandled exception (HTTP 500).
-/

/-- An absolute path, as the list of its components below `/`. -/
abbrev AbsPath := List String

/-- Contents of a regular file: the text written through `contents`
or the raw bytes written through `base64_contents`. -/
inductive FileData where
  | text (s : String)
  | bytes (bs : List Nat)
deriving DecidableEq, Repr

/-- The kind of a filesystem node. -/
inductive NodeKind where
  | file (d : FileData)
  | dir
  | symlink (target : AbsPath)
deriving DecidableEq, Repr

/-- A filesystem node together with the stat fields the endpoints read
(`st_mode`, `st_uid`). -/
structure Node where
  kind : NodeKind
  mode : Nat
  uid : Nat
deriving DecidableEq, Repr

/-- The filesystem: a finite map from absolute paths to nodes,
represented as an association list. -/
abbrev FS := List (AbsPath × Node)

def kindIsDir : NodeKind → Bool
  | NodeKind.dir => true
  | _ => false

def kindIsFile : NodeKind → Bool
  | NodeKind.file _ => true
  | _ => false

def kindIsSymlink : NodeKind → Bool
  | NodeKind.symlink _ => true
  | _ => false

/-- Look a path up in the filesystem (an `lstat` that does not touch
the path's prefix). -/
def fsLookup (fs : FS) (p : AbsPath) : Option Node :=
  (fs.find? (fun e => decide (e.1 = p))).map (fun e => e.2)

/-- Remove the entry stored at exactly `p` (models `unlink`). -/
def fsRemove (fs : FS) (p : AbsPath) : FS :=
  fs.filter (fun e => decide (e.1 ≠ p))

/-- Store a node at `p`, replacing any previous entry. -/
def fsInsert (fs : FS) (p : AbsPath) (n : Node) : FS :=
  (p, n) :: fsRemove fs p

theorem fsLookup_nil (p : AbsPath) : fsLookup [] p = none := rfl

theorem fsLookup_cons (e : AbsPath × Node) (fs : FS) (p : AbsPath) :
    fsLookup (e :: fs) p = if e.1 = p then some e.2 else fsLookup fs p := by
  by_cases h : e.1 = p <;> simp [fsLookup, List.find?_cons, h]

theorem fsRemove_cons_stay (e : AbsPath × Node) (fs : FS) (p : AbsPath) (h : e.1 ≠ p) :
    fsRemove (e :: fs) p = e :: fsRemove fs p := by
  simp [fsRemove, List.filter_cons, h]

theorem fsRemove_cons_drop (e : AbsPath × Node) (fs : FS) (p : AbsPath) (h : e.1 = p) :
    fsRemove (e :: fs) p = fsRemove fs p := by
  simp [fsRemove, List.filter_cons, h]

theorem fsLookup_remove (fs : FS) (p q : AbsPath) :
    fsLookup (fsRemove fs p) q = if q = p then none else fsLookup fs q := by
  induction fs with
  | nil => by_cases h : q = p <;> simp [fsRemove, fsLookup, h]
  | cons e fs ih =>
    by_cases hep : e.1 = p
    · rw [fsRemove_cons_drop e fs p hep, ih]
      by_cases hq : q = p
      · simp [hq]
      · have heq : e.1 ≠ q := fun hh => hq (by rw [← hh, hep])
        simp [hq, fsLookup_cons, heq]
    · rw [fsRemove_cons_stay e fs p hep, fsLookup_cons, fsLookup_cons, ih]
      by_cases heq : e.1 = q
      · have hq : ¬ (q = p) := fun hh => hep (by rw [heq, hh])
        simp [heq, hq]
      · simp [heq]

theorem fsLookup_insert_self (fs : FS) (p : AbsPath) (n : Node) :
    fsLookup (fsInsert fs p n) p = some n := by
  simp [fsInsert, fsLookup_cons]

theorem fsLookup_insert_ne (fs : FS) (p q : AbsPath) (n : Node) (h : q ≠ p) :
    fsLookup (fsInsert fs p n) q = fsLookup fs q := by
  rw [fsInsert, fsLookup_cons]
  have hpq : ¬ ((p, n).1 = q) := fun hh => h (by simpa using hh.symm)
  simp only [hpq, if_false, fsLookup_remove, h, if_neg h]

theorem fsRemove_idem (fs : FS) (p : AbsPath) :
    fsRemove (fsRemove fs p) p = fsRemove fs p := by
  induction fs with
  | nil => rfl
  | cons e fs ih =>
    by_cases hep : e.1 = p
    · rw [fsRemove_cons_drop e fs p hep, ih]
    · rw [fsRemove_cons_stay e fs p hep, fsRemove_cons_stay e (fsRemove fs p) p hep, ih]

theorem fsRemove_insert (fs : FS) (p : AbsPath) (n : Node) :
    fsRemove (fsInsert fs p n) p = fsRemove fs p := by
  rw [fsInsert, fsRemove_cons_drop (p, n) (fsRemove fs p) p rfl, fsRemove_idem]

theorem fsInsert_insert (fs : FS) (p : AbsPath) (n : Node) :
    fsInsert (fsInsert fs p n) p n = fsInsert fs p n := by
  show fsInsert ((p, n) :: fsRemove fs p) p n = (p, n) :: fsRemove fs p
  rw [fsInsert, fsRemove_cons_drop (p, n) (fsRemove fs p) p rfl, fsRemove_idem]

/-- The symlink-following bound used by the resolver, standing in for
the OS symlink-loop limit that `os.path.realpath` relies on. -/
def maxSymlinkFuel : Nat := 40

/-- Purely lexical normalization (the mode `realpath` falls back to
once the symlink-loop budget is exhausted): drop empty and `.`
components and apply `..` to the part built so far, keeping everything
else literally. -/
def resolveLiteral (acc : AbsPath) : List String → AbsPath
  | [] => acc
  | c :: rest =>
    if c = "" ∨ c = "." then resolveLiteral acc rest
    else if c = ".." then resolveLiteral acc.dropLast rest
    else resolveLiteral (acc ++ [c]) rest

/-- One resolution sweep: walk the components left to right from the
already-resolved `acc`, dropping empty and `.` components, applying
`..` to the resolved part built so far, and keeping components that do
not exist literally (non-strict mode); the first symlink encountered is
handed to `onLink` together with the remaining components. -/
def resolveSeg (fs : FS) (onLink : AbsPath → List String → AbsPath) (acc : AbsPath) :
    List String → AbsPath
  | [] => acc
  | c :: rest =>
    if c = "" ∨ c = "." then resolveSeg fs onLink acc rest
    else if c = ".." then resolveSeg fs onLink acc.dropLast rest
    else
      match fsLookup fs (acc ++ [c]) with
      | some n =>
        match n.kind with
        | NodeKind.symlink t => onLink t rest
        | _ => resolveSeg fs onLink (acc ++ [c]) rest
      | none => resolveSeg fs onLink (acc ++ [c]) rest

/-- Models `os.path.realpath` (non-strict, as used by
`pathlib.Path.resolve()`): sweep the components, and on meeting a
symlink restart from `/` on its (absolute) target followed by the
remaining components, spending one unit of fuel; the fuel stands in for
the OS symlink-loop limit, and when it runs out remaining links are
kept literally. -/
def resolveGo (fs : FS) : Nat → AbsPath → List String → AbsPath
  | 0, acc, cs => resolveLiteral acc cs
  | Nat.succ fuel, acc, cs =>
    resolveSeg fs (fun t rest => resolveGo fs fuel [] (t ++ rest)) acc cs

/-- Models `pathlib.PurePath` parsing of the client-supplied path
string: split on `/`, dropping empty and `.` components (pathlib
normalizes those away at construction time) while keeping `..`. -/
def splitRaw : List Char → List (List Char)
  | [] => [[]]
  | c :: rest =>
    if c = '/' then [] :: splitRaw rest
    else
      match splitRaw rest with
      | [] => [[c]]
      | g :: gs => (c :: g) :: gs

def splitClientPath (p : String) : List String :=
  ((splitRaw p.data).map (fun g => String.mk g)).filter (fun c => decide (c ≠ "" ∧ c ≠ "."))

/-- `(root_directory / path).resolve()`: the handlers' resolved join of
the (already resolved) root with the client path. -/
def resolvePathFrom (fs : FS) (root : AbsPath) (p : String) : AbsPath :=
  resolveGo fs maxSymlinkFuel root (splitClientPath p)

/-- Re-resolve an absolute path from `/` (what the OS does on each
syscall taking a path string, e.g. `exists()`/`is_dir()`/`open`). -/
def resolveAbs (fs : FS) (p : AbsPath) : AbsPath :=
  resolveGo fs maxSymlinkFuel [] p

/-- Models `pathlib.PurePath.parents`: the sequence of proper
ancestors of a path, down to `/` (which is `[]` here). -/
def pyParents (p : AbsPath) : List AbsPath :=
  (List.range p.length).map (fun k => p.take k)

/-- The handlers' confinement rejection test, from
`full_file_path != root_directory and root_directory not in
full_file_path.parents`. -/
def outsideRoot (root full : AbsPath) : Bool :=
  decide (full ≠ root ∧ root ∉ pyParents full)

/-- Models a `stat` that follows symlinks (`exists()`, `is_dir()`,
`open`): re-resolve the path, then read the node; a node that is still
a symlink after full resolution means the loop limit was hit (ELOOP),
i.e. no result. -/
def statFollow (fs : FS) (p : AbsPath) : Option Node :=
  match fsLookup fs (resolveAbs fs p) with
  | some n =>
    match n.kind with
    | NodeKind.symlink _ => none
    | _ => some n
  | none => none

/-- `Path.exists()` (follows symlinks). -/
def pyExists (fs : FS) (p : AbsPath) : Bool :=
  (statFollow fs p).isSome

/-- `Path.is_dir()` (follows symlinks). -/
def pyIsDir (fs : FS) (p : AbsPath) : Bool :=
  match statFollow fs p with
  | some n => kindIsDir n.kind
  | none => false

/-- The filesystem location named by the raw (pre-resolution) joined
path `root_directory / path`: the OS resolves every component except
the last one before an `lstat`/`unlink` acts on the leaf. -/
def rawLeaf (fs : FS) (root : AbsPath) (cs : List String) : AbsPath :=
  match cs.getLast? with
  | none => root
  | some l =>
    let d := resolveGo fs maxSymlinkFuel root cs.dropLast
    if l = "" ∨ l = "." then d
    else if l = ".." then d.dropLast
    else d ++ [l]

/-- `(root_directory / path).is_symlink()`: an `lstat` on the raw
joined path. -/
def rawIsSymlink (fs : FS) (root : AbsPath) (cs : List String) : Bool :=
  match fsLookup fs (rawLeaf fs root cs) with
  | some n => kindIsSymlink n.kind
  | none => false

/-- The standard base64 alphabet used by `base64.b64encode/b64decode`. -/
def b64Alphabet : List Char :=
  "ABCDEFGHIJKLMNOPQRSTUVWXYZabcdefghijklmnopqrstuvwxyz0123456789+/".data

def b64CharOfVal (v : Nat) : Char := b64Alphabet.getD v 'A'

def b64ValOfChar (c : Char) : Nat := b64Alphabet.indexOf c

/-- Group bytes (big-endian) into 6-bit values, three bytes per four
values, with the final partial group truncated as base64 does. -/
def b64EncodeVals : List Nat → List Nat
  | a :: b :: c :: rest =>
    (a / 4) :: ((a % 4) * 16 + b / 16) :: ((b % 16) * 4 + c / 64) :: (c % 64) :: b64EncodeVals rest
  | [a, b] => [a / 4, (a % 4) * 16 + b / 16, (b % 16) * 4]
  | [a] => [a / 4, (a % 4) * 16]
  | [] => []

/-- The `=` padding appended for a trailing group, from the byte count
modulo 3. -/
def b64Pad : Nat → List Char
  | 0 => []
  | 1 => ['=', '=']
  | _ => ['=']

/-- `base64.b64encode` over a byte list. -/
def b64encode (bs : List Nat) : List Char :=
  (b64EncodeVals bs).map b64CharOfVal ++ b64Pad (bs.length % 3)

/-- Reassemble bytes from groups of four base64 characters, failing
(`none`, Python's `binascii.Error`) when the characters do not form
full groups of four with padding only as a final `xx==` or `xxx=`
group.  This is the well-padded core of `binascii.a2b_base64`: every
input accepted here Python accepts with the same bytes, and an
incorrectly padded input such as `"AA"` is rejected exactly as Python
rejects it. -/
def b64DecodeGroups : List Char → Option (List Nat)
  | [] => some []
  | c1 :: c2 :: c3 :: c4 :: rest =>
    if b64Alphabet.contains c1 && b64Alphabet.contains c2 then
      let w := b64ValOfChar c1
      let x := b64ValOfChar c2
      if c3 == '=' && c4 == '=' && rest.isEmpty then
        some [w * 4 + x / 16]
      else if b64Alphabet.contains c3 && c4 == '=' && rest.isEmpty then
        let y := b64ValOfChar c3
        some [w * 4 + x / 16, (x % 16) * 16 + y / 4]
      else if b64Alphabet.contains c3 && b64Alphabet.contains c4 then
        let y := b64ValOfChar c3
        let z := b64ValOfChar c4
        (b64DecodeGroups rest).map
          (fun tail =>
            (w * 4 + x / 16) :: ((x % 16) * 16 + y / 4) :: ((y % 4) * 64 + z) :: tail)
      else none
    else none
  | _ => none

/-- `base64.b64decode` (default non-validating mode): characters
outside the alphabet and the `=` padding are discarded, then the
remaining characters are decoded in groups of four; incorrectly padded
input raises `binascii.Error` (`none`). -/
def b64decode (cs : List Char) : Option (List Nat) :=
  b64DecodeGroups (cs.filter (fun c => b64Alphabet.contains c || c == '='))

/-- Python's `oct`: the string "0o" followed by the octal digits. -/
def pyOct (n : Nat) : String :=
  "0o" ++ String.mk (Nat.toDigits 8 n)

/-- Python's slice `s[-3:]`: the last three characters (or the whole
string if shorter). -/
def pyLast3 (s : String) : String :=
  String.mk (s.data.drop (s.data.length - 3))

/-- One `rwx` triple of `stat.filemode`, from a 3-bit group. -/
def rwxTriple (bits : Nat) : List Char :=
  [if bits / 4 % 2 = 1 then 'r' else '-',
   if bits / 2 % 2 = 1 then 'w' else '-',
   if bits % 2 = 1 then 'x' else '-']

def kindChar : NodeKind → Char
  | NodeKind.dir => 'd'
  | NodeKind.symlink _ => 'l'
  | NodeKind.file _ => '-'

/-- Models `stat.filemode` for ordinary modes (no setuid/setgid/sticky
handling): the file-type character followed by the three permission
triples. -/
def filemodeStr (n : Node) : String :=
  String.mk (kindChar n.kind ::
    (rwxTriple (n.mode / 64 % 8) ++ rwxTriple (n.mode / 8 % 8) ++ rwxTriple (n.mode % 8)))

/-- `st_size` as reported by an lstat: byte length for a regular file
(UTF-8 length of text), the target string length for a symlink, and the
usual block size for a directory. -/
def nodeSize : Node → Nat
  | ⟨NodeKind.file (FileData.text s), _, _⟩ => s.utf8ByteSize
  | ⟨NodeKind.file (FileData.bytes bs), _, _⟩ => bs.length
  | ⟨NodeKind.dir, _, _⟩ => 4096
  | ⟨NodeKind.symlink t, _, _⟩ => ("/" ++ String.intercalate "/" t).length

/-- `str(path.relative_to(root))` for a path strictly below `root`. -/
def relPathStr (root p : AbsPath) : String :=
  String.intercalate "/" (p.drop root.length)

/-- The JSON record produced for one directory child. -/
structure FileEntry where
  file_name : String
  owner : String
  size_in_bytes : Nat
  permissions_octal : String
  permissions_human : String
deriving DecidableEq, Repr

/-- Embeds `_get_file_details`: metadata of one directory child from
`os.stat(path, follow_symlinks=False)`, i.e. the entry's own node, with
`pw` standing for the `getpwuid(..).pw_name` user-database lookup. -/
def get_file_details (pw : Nat → String) (fs : FS) (root : AbsPath) (p : AbsPath) :
    Option FileEntry :=
  (fsLookup fs p).map (fun n =>
    { file_name := relPathStr root p
      owner := pw n.uid
      size_in_bytes := nodeSize n
      permissions_octal := pyLast3 (pyOct (Nat.land n.mode 0o777))
      permissions_human := filemodeStr n })

/-- `Path.iterdir()`: the immediate children of a directory, in
filesystem iteration order. -/
def dirChildren (fs : FS) (p : AbsPath) : List AbsPath :=
  (fs.filter (fun e => decide (e.1.length = p.length + 1) && p.isPrefixOf e.1)).map (fun e => e.1)

/-- Default mode bits of a directory created by `mkdir` (0o755 under
the usual umask), with the directory type bit. -/
def defaultDirNode : Node := ⟨NodeKind.dir, 0o40755, 0⟩

/-- Default node for a file newly created by `open("w+")`/`open("wb+")`
(0o644 under the usual umask), with the regular-file type bit. -/
def defaultFileMode : Nat := 0o100644

/-- Models `Path.mkdir(exist_ok=True)` for one directory: nothing to do
when the path is already a directory (after following symlinks), a
`FileExistsError`/`NotADirectoryError` (`none`) when something else
sits there, otherwise create the directory. -/
def mkdirOne (fs : FS) (p : AbsPath) : Option FS :=
  match statFollow fs p with
  | some n => if kindIsDir n.kind then some fs else none
  | none =>
    if (fsLookup fs p).isSome then none
    else some (fsInsert fs p defaultDirNode)

/-- The prefixes of `p` from `/` inward, ensured to be directories one
by one. -/
def mkdirUpTo (fs : FS) (p : AbsPath) : Nat → Option FS
  | 0 => mkdirOne fs []
  | Nat.succ k => (mkdirUpTo fs p k).bind (fun fs2 => mkdirOne fs2 (p.take (k + 1)))

/-- Models `full_file_path.parent.mkdir(exist_ok=True, parents=True)`:
create every missing ancestor directory, outermost first. -/
def mkdirParents (fs : FS) (p : AbsPath) : Option FS :=
  mkdirUpTo fs p p.length

/-- Models `full_file_path.open("w+")`/`open("wb+")` followed by a
single `write`: truncate-create the file at the resolved location,
keeping the stat fields of an existing file; opening a directory for
writing is `IsADirectoryError` (`none`). -/
def writeFile (fs : FS) (p : AbsPath) (d : FileData) : Option FS :=
  let q := resolveAbs fs p
  match fsLookup fs q with
  | some n =>
    match n.kind with
    | NodeKind.dir => none
    | NodeKind.symlink _ => none
    | NodeKind.file _ => some (fsInsert fs q ⟨NodeKind.file d, n.mode, n.uid⟩)
  | none => some (fsInsert fs q ⟨NodeKind.file d, defaultFileMode, 0⟩)

/-- Models `shutil.rmtree`: refuses a symlink (raises `OSError`),
otherwise removes the path and everything below it. -/
def rmtree (fs : FS) (p : AbsPath) : Option FS :=
  match fsLookup fs p with
  | some n =>
    if kindIsSymlink n.kind then none
    else some (fs.filter (fun e => !(p.isPrefixOf e.1)))
  | none => none

/-- The HTTP method of a write request. -/
inductive Method where
  | POST
  | PUT
deriving DecidableEq, Repr

/-- The JSON body of a create/update request: the `contents` and
`base64_contents` fields. -/
structure RequestBody where
  contents : Option String
  base64_contents : Option String
deriving DecidableEq, Repr

/-- A response payload: an error/confirmation message, file contents,
or a directory listing. -/
inductive RespBody where
  | message (s : String)
  | fileContents (s : String)
  | dirListing (es : List FileEntry)
deriving DecidableEq, Repr

/-- An HTTP response: status code and JSON payload. -/
structure HttpResp where
  status : Nat
  body : RespBody
deriving DecidableEq, Repr

/-- Embeds the GET view function `list_files`.  `root` is the already
resolved `root_directory`; `pw` is the injected uid-to-username lookup.
The view performs no filesystem mutation; `none` models an uncaught
error (a loop-broken stat or an undecodable binary file). -/
def list_files (pw : Nat → String) (fs : FS) (root : AbsPath) (p : String) :
    Option HttpResp :=
  let full := resolvePathFrom fs root p
  if outsideRoot root full then
    some ⟨403, RespBody.message ("Cannot access paths that are outside of the root directory: " ++ p)⟩
  else if !(pyExists fs full) then
    some ⟨404, RespBody.message ("Could not find file path " ++ p)⟩
  else if pyIsDir fs full then
    ((dirChildren fs full).mapM (get_file_details pw fs root)).map
      (fun es => ⟨200, RespBody.dirListing es⟩)
  else
    match statFollow fs full with
    | some n =>
      match n.kind with
      | NodeKind.file (FileData.text s) => some ⟨200, RespBody.fileContents s⟩
      | _ => none
    | none => none

/-- Embeds the POST/PUT view function `create_or_update_file`.  Returns
the response together with the filesystem after the request; `none`
models an uncaught error (500): a failing mkdir/open, or
`binascii.Error` from `base64.b64decode` on incorrectly padded input
(which Python raises after `open("wb+")` has already truncated the
file). -/
def create_or_update_file (fs : FS) (root : AbsPath) (method : Method) (p : String)
    (body : RequestBody) : Option (HttpResp × FS) :=
  let full := resolvePathFrom fs root p
  if outsideRoot root full then
    some (⟨403, RespBody.message ("Cannot access paths that are outside of the root directory: " ++ p)⟩, fs)
  else if method = Method.POST ∧ pyExists fs full = true then
    some (⟨400, RespBody.message ("Path already exists. If you want to override, please use PUT instead: " ++ p)⟩, fs)
  else if body.contents.isNone ∧ body.base64_contents.isNone then
    some (⟨400, RespBody.message "No file contents specified"⟩, fs)
  else
    (mkdirParents fs full.dropLast).bind (fun fs1 =>
      match body.contents with
      | some s =>
        (writeFile fs1 full (FileData.text s)).map
          (fun fs2 => (⟨200, RespBody.message ("Created file " ++ p)⟩, fs2))
      | none =>
        match body.base64_contents with
        | some b =>
          match b64decode b.data with
          | some bytes2 =>
            (writeFile fs1 full (FileData.bytes bytes2)).map
              (fun fs2 => (⟨200, RespBody.message ("Created file " ++ p)⟩, fs2))
          | none => none
        | none => some (⟨200, RespBody.message ("Created file " ++ p)⟩, fs1))

/-- Embeds the DELETE view function `delete_file`.  Returns the
response together with the filesystem after the request; `none` models
an uncaught OS error (500), notably `shutil.rmtree` refusing a
symlink. -/
def delete_file (fs : FS) (root : AbsPath) (p : String) : Option (HttpResp × FS) :=
  let cs := splitClientPath p
  let full := resolvePathFrom fs root p
  if outsideRoot root full then
    some (⟨403, RespBody.message ("Cannot delete paths that are outside of the root directory: " ++ p)⟩, fs)
  else if !(pyExists fs full) then
    some (⟨404, RespBody.message ("Could not find file path " ++ p)⟩, fs)
  else
    let target := if rawIsSymlink fs root cs then rawLeaf fs root cs else full
    if pyIsDir fs target then
      (rmtree fs target).map
        (fun fs2 => (⟨200, RespBody.message ("Deleted directory " ++ p)⟩, fs2))
    else
      some (⟨200, RespBody.message ("Deleted file " ++ p)⟩, fsRemove fs target)

/-- No node of the filesystem is a symlink: in this regime `realpath`
is purely lexical, so resolution is unaffected by creating or removing
files and directories. -/
def noSymlinksB (fs : FS) : Bool :=
  fs.all (fun e => !(kindIsSymlink e.2.kind))

/-- A path component that names an entry (not `""`, `.` or `..`). -/
def goodComp (c : String) : Bool :=
  decide (c ≠ "" ∧ c ≠ "." ∧ c ≠ "..")

/-- A fully normalized absolute path: every component is a name. -/
def goodPathB (p : AbsPath) : Bool :=
  p.all goodComp

theorem fsLookup_eq_some_mem (fs : FS) (q : AbsPath) (n : Node)
    (h : fsLookup fs q = some n) : (q, n) ∈ fs := by
  unfold fsLookup at h
  cases hf : fs.find? (fun e => decide (e.1 = q)) with
  | none => rw [hf] at h; simp at h
  | some e =>
    rw [hf] at h
    simp at h
    have hm := List.mem_of_find?_eq_some hf
    have hp := List.find?_some hf
    simp only [decide_eq_true_eq] at hp
    obtain ⟨a, b⟩ := e
    obtain rfl : a = q := hp
    obtain rfl : b = n := h
    exact hm

theorem noSymlinks_lookup (fs : FS) (hn : noSymlinksB fs = true) (q : AbsPath) (n : Node)
    (h : fsLookup fs q = some n) : kindIsSymlink n.kind = false := by
  have hm := fsLookup_eq_some_mem fs q n h
  have := List.all_eq_true.mp hn _ hm
  simpa using this

theorem resolveGo_nil (fs : FS) (fuel : Nat) (acc : AbsPath) :
    resolveGo fs fuel acc [] = acc := by
  cases fuel with
  | zero => rfl
  | succ f => rfl

theorem resolveGo_cons_skip (fs : FS) (fuel : Nat) (acc : AbsPath) (c : String)
    (rest : List String) (h : c = "" ∨ c = ".") :
    resolveGo fs fuel acc (c :: rest) = resolveGo fs fuel acc rest := by
  cases fuel with
  | zero =>
    simp only [resolveGo, resolveLiteral]
    rw [if_pos h]
  | succ f =>
    simp only [resolveGo, resolveSeg]
    rw [if_pos h]

theorem resolveGo_cons_dotdot (fs : FS) (fuel : Nat) (acc : AbsPath) (rest : List String) :
    resolveGo fs fuel acc (".." :: rest) = resolveGo fs fuel acc.dropLast rest := by
  cases fuel with
  | zero =>
    simp only [resolveGo, resolveLiteral]
    rw [if_neg (by decide)]
    simp
  | succ f =>
    simp only [resolveGo, resolveSeg]
    rw [if_neg (by decide)]
    simp

theorem resolveGo_cons_name_plain (fs : FS) (fuel : Nat) (acc : AbsPath) (c : String)
    (rest : List String) (h : goodComp c = true)
    (hns : ∀ n, fsLookup fs (acc ++ [c]) = some n → kindIsSymlink n.kind = false) :
    resolveGo fs fuel acc (c :: rest) = resolveGo fs fuel (acc ++ [c]) rest := by
  have hc : c ≠ "" ∧ c ≠ "." ∧ c ≠ ".." := by simpa [goodComp] using h
  cases fuel with
  | zero =>
    simp only [resolveGo, resolveLiteral]
    rw [if_neg (by tauto), if_neg hc.2.2]
  | succ f =>
    simp only [resolveGo, resolveSeg]
    rw [if_neg (by tauto), if_neg hc.2.2]
    cases hl : fsLookup fs (acc ++ [c]) with
    | none => rfl
    | some n =>
      have hk := hns n hl
      obtain ⟨k, m, u⟩ := n
      cases k with
      | file d => rfl
      | dir => rfl
      | symlink t => simp [kindIsSymlink] at hk

theorem goodPathB_dropLast (p : AbsPath) (h : goodPathB p = true) :
    goodPathB p.dropLast = true := by
  rw [goodPathB, List.all_eq_true] at h ⊢
  exact fun x hx => h x (List.Sublist.subset (List.dropLast_sublist p) hx)

theorem goodPathB_append_one (p : AbsPath) (c : String) (hp : goodPathB p = true)
    (hc : goodComp c = true) : goodPathB (p ++ [c]) = true := by
  rw [goodPathB, List.all_eq_true] at hp ⊢
  intro x hx
  rcases List.mem_append.mp hx with h1 | h2
  · exact hp x h1
  · rw [List.mem_singleton.mp h2]; exact hc

theorem resolveGo_all_good (fs : FS) (hn : noSymlinksB fs = true) (fuel : Nat) :
    ∀ (cs : List String), cs.all goodComp = true → ∀ acc : AbsPath,
      resolveGo fs fuel acc cs = acc ++ cs := by
  intro cs
  induction cs with
  | nil => intro _ acc; rw [resolveGo_nil]; simp
  | cons c rest ih =>
    intro hg acc
    have hgc : goodComp c = true ∧ rest.all goodComp = true := by
      simpa [List.all_cons] using hg
    rw [resolveGo_cons_name_plain fs fuel acc c rest hgc.1
        (fun n hl => noSymlinks_lookup fs hn _ n hl), ih hgc.2 (acc ++ [c])]
    simp

theorem resolveGo_fs_irrel (fs fs' : FS) (hn : noSymlinksB fs = true)
    (hn' : noSymlinksB fs' = true) (fuel : Nat) :
    ∀ (cs : List String) (acc : AbsPath),
      resolveGo fs fuel acc cs = resolveGo fs' fuel acc cs := by
  intro cs
  induction cs with
  | nil => intro acc; rw [resolveGo_nil, resolveGo_nil]
  | cons c rest ih =>
    intro acc
    by_cases h1 : c = "" ∨ c = "."
    · rw [resolveGo_cons_skip fs fuel acc c rest h1,
        resolveGo_cons_skip fs' fuel acc c rest h1, ih acc]
    · by_cases h2 : c = ".."
      · subst h2
        rw [resolveGo_cons_dotdot, resolveGo_cons_dotdot, ih acc.dropLast]
      · have hg : goodComp c = true := by
          rw [goodComp, decide_eq_true_eq]
          push_neg at h1
          exact ⟨h1.1, h1.2, h2⟩
        rw [resolveGo_cons_name_plain fs fuel acc c rest hg
            (fun n hl => noSymlinks_lookup fs hn _ n hl),
          resolveGo_cons_name_plain fs' fuel acc c rest hg
            (fun n hl => noSymlinks_lookup fs' hn' _ n hl),
          ih (acc ++ [c])]

theorem resolveGo_good_output (fs : FS) (hn : noSymlinksB fs = true) (fuel : Nat) :
    ∀ (cs : List String) (acc : AbsPath), goodPathB acc = true →
      goodPathB (resolveGo fs fuel acc cs) = true := by
  intro cs
  induction cs with
  | nil => intro acc hacc; rw [resolveGo_nil]; exact hacc
  | cons c rest ih =>
    intro acc hacc
    by_cases h1 : c = "" ∨ c = "."
    · rw [resolveGo_cons_skip fs fuel acc c rest h1]; exact ih acc hacc
    · by_cases h2 : c = ".."
      · subst h2
        rw [resolveGo_cons_dotdot]
        exact ih acc.dropLast (goodPathB_dropLast acc hacc)
      · have hg : goodComp c = true := by
          rw [goodComp, decide_eq_true_eq]
          push_neg at h1
          exact ⟨h1.1, h1.2, h2⟩
        rw [resolveGo_cons_name_plain fs fuel acc c rest hg
            (fun n hl => noSymlinks_lookup fs hn _ n hl)]
        exact ih (acc ++ [c]) (goodPathB_append_one acc c hacc hg)

theorem resolveAbs_good (fs : FS) (hn : noSymlinksB fs = true) (q : AbsPath)
    (hq : goodPathB q = true) : resolveAbs fs q = q := by
  rw [resolveAbs, resolveGo_all_good fs hn maxSymlinkFuel q hq []]
  simp

theorem statFollow_no_symlinks (fs : FS) (hn : noSymlinksB fs = true) (q : AbsPath)
    (hq : goodPathB q = true) : statFollow fs q = fsLookup fs q := by
  rw [statFollow, resolveAbs_good fs hn q hq]
  cases hl : fsLookup fs q with
  | none => rfl
  | some n =>
    have hk := noSymlinks_lookup fs hn q n hl
    obtain ⟨k, m, u⟩ := n
    cases k with
    | file d => rfl
    | dir => rfl
    | symlink t => simp [kindIsSymlink] at hk

theorem mem_pyParents_iff (root q : AbsPath) :
    root ∈ pyParents q ↔ (q.take root.length = root ∧ root.length < q.length) := by
  rw [pyParents]
  simp only [List.mem_map, List.mem_range]
  constructor
  · rintro ⟨k, hk, rfl⟩
    have hlen : (q.take k).length = k := by
      rw [List.length_take]; omega
    refine ⟨?_, ?_⟩
    · rw [hlen]
    · rw [hlen]; exact hk
  · rintro ⟨h1, h2⟩
    exact ⟨root.length, h2, h1⟩

theorem b64EncodeVals_bound (bs : List Nat) (h : ∀ x ∈ bs, x < 256) :
    ∀ v ∈ b64EncodeVals bs, v < 64 := by
  match bs with
  | [] => intro v hv; simp [b64EncodeVals] at hv
  | [a] =>
    have ha : a < 256 := h a (by simp)
    intro v hv
    simp [b64EncodeVals] at hv
    rcases hv with h1 | h1 <;> omega
  | [a, b] =>
    have ha : a < 256 := h a (by simp)
    have hb : b < 256 := h b (by simp)
    intro v hv
    simp [b64EncodeVals] at hv
    rcases hv with h1 | h1 | h1 <;> omega
  | a :: b :: c :: rest =>
    have ha : a < 256 := h a (by simp)
    have hb : b < 256 := h b (by simp)
    have hc : c < 256 := h c (by simp)
    have ih := b64EncodeVals_bound rest (fun x hx => h x (by simp [hx]))
    intro v hv
    rw [b64EncodeVals] at hv
    simp only [List.mem_cons] at hv
    rcases hv with h1 | h1 | h1 | h1 | h1
    · omega
    · omega
    · omega
    · omega
    · exact ih v h1

theorem b64_val_char_val (v : Nat) (h : v < 64) :
    b64ValOfChar (b64CharOfVal v) = v := by
  revert h
  revert v
  decide

theorem b64_char_in_alphabet (v : Nat) (h : v < 64) :
    b64Alphabet.contains (b64CharOfVal v) = true := by
  revert h
  revert v
  decide

theorem b64_char_ne_pad (v : Nat) (h : v < 64) :
    (b64CharOfVal v == '=') = false := by
  revert h
  revert v
  decide

theorem b64_pad_chars (k : Nat) : ∀ c ∈ b64Pad k, c = '=' := by
  match k with
  | 0 => intro c hc; simp [b64Pad] at hc
  | 1 => intro c hc; simp [b64Pad] at hc; exact hc
  | Nat.succ (Nat.succ m) => intro c hc; simp [b64Pad] at hc; exact hc

theorem b64_encode_filter (bs : List Nat) (h : ∀ x ∈ bs, x < 256) :
    (b64encode bs).filter (fun c => b64Alphabet.contains c || c == '=') = b64encode bs := by
  rw [List.filter_eq_self]
  intro c hc
  rw [b64encode] at hc
  rcases List.mem_append.mp hc with h1 | h1
  · obtain ⟨v, hv, rfl⟩ := List.mem_map.mp h1
    have hin := b64_char_in_alphabet v (b64EncodeVals_bound bs h v hv)
    have hmem : b64CharOfVal v ∈ b64Alphabet := by simpa using hin
    simp [hmem]
  · have hpc := b64_pad_chars _ c h1
    simp [hpc]

theorem b64_decode_group_full (v1 v2 v3 v4 : Nat) (h1 : v1 < 64) (h2 : v2 < 64)
    (h3 : v3 < 64) (h4 : v4 < 64) (tail : List Char) :
    b64DecodeGroups (b64CharOfVal v1 :: b64CharOfVal v2 :: b64CharOfVal v3 ::
      b64CharOfVal v4 :: tail) =
    (b64DecodeGroups tail).map
      (fun t => (v1 * 4 + v2 / 16) :: ((v2 % 16) * 16 + v3 / 4) ::
        ((v3 % 4) * 64 + v4) :: t) := by
  simp only [b64DecodeGroups, b64_char_in_alphabet v1 h1, b64_char_in_alphabet v2 h2,
    b64_char_in_alphabet v3 h3, b64_char_in_alphabet v4 h4,
    b64_char_ne_pad v3 h3, b64_char_ne_pad v4 h4,
    b64_val_char_val v1 h1, b64_val_char_val v2 h2,
    b64_val_char_val v3 h3, b64_val_char_val v4 h4]
  simp

theorem b64_decode_group_pad2 (v1 v2 : Nat) (h1 : v1 < 64) (h2 : v2 < 64) :
    b64DecodeGroups [b64CharOfVal v1, b64CharOfVal v2, '=', '='] =
      some [v1 * 4 + v2 / 16] := by
  simp only [b64DecodeGroups, b64_char_in_alphabet v1 h1, b64_char_in_alphabet v2 h2,
    b64_val_char_val v1 h1, b64_val_char_val v2 h2]
  simp

theorem b64_decode_group_pad1 (v1 v2 v3 : Nat) (h1 : v1 < 64) (h2 : v2 < 64)
    (h3 : v3 < 64) :
    b64DecodeGroups [b64CharOfVal v1, b64CharOfVal v2, b64CharOfVal v3, '='] =
      some [v1 * 4 + v2 / 16, (v2 % 16) * 16 + v3 / 4] := by
  simp only [b64DecodeGroups, b64_char_in_alphabet v1 h1, b64_char_in_alphabet v2 h2,
    b64_char_in_alphabet v3 h3, b64_char_ne_pad v3 h3,
    b64_val_char_val v1 h1, b64_val_char_val v2 h2, b64_val_char_val v3 h3]
  simp

theorem b64_decodeGroups_encode (bs : List Nat) (h : ∀ x ∈ bs, x < 256) :
    b64DecodeGroups (b64encode bs) = some bs := by
  rw [b64encode]
  match bs with
  | [] => rfl
  | [a] =>
    have ha : a < 256 := h a (by simp)
    have hv1 : a / 4 < 64 := by omega
    have hv2 : (a % 4) * 16 < 64 := by omega
    show b64DecodeGroups [b64CharOfVal (a / 4), b64CharOfVal ((a % 4) * 16), '=', '='] =
      some [a]
    rw [b64_decode_group_pad2 (a / 4) ((a % 4) * 16) hv1 hv2]
    have he : a / 4 * 4 + (a % 4) * 16 / 16 = a := by omega
    rw [he]
  | [a, b] =>
    have ha : a < 256 := h a (by simp)
    have hb : b < 256 := h b (by simp)
    have hv1 : a / 4 < 64 := by omega
    have hv2 : (a % 4) * 16 + b / 16 < 64 := by omega
    have hv3 : (b % 16) * 4 < 64 := by omega
    show b64DecodeGroups [b64CharOfVal (a / 4), b64CharOfVal ((a % 4) * 16 + b / 16),
      b64CharOfVal ((b % 16) * 4), '='] = some [a, b]
    rw [b64_decode_group_pad1 (a / 4) ((a % 4) * 16 + b / 16) ((b % 16) * 4) hv1 hv2 hv3]
    have he1 : a / 4 * 4 + ((a % 4) * 16 + b / 16) / 16 = a := by omega
    have he2 : ((a % 4) * 16 + b / 16) % 16 * 16 + (b % 16) * 4 / 4 = b := by omega
    rw [he1, he2]
  | a :: b :: c :: rest =>
    have ha : a < 256 := h a (by simp)
    have hb : b < 256 := h b (by simp)
    have hc : c < 256 := h c (by simp)
    have hv1 : a / 4 < 64 := by omega
    have hv2 : (a % 4) * 16 + b / 16 < 64 := by omega
    have hv3 : (b % 16) * 4 + c / 64 < 64 := by omega
    have hv4 : c % 64 < 64 := by omega
    have ih := b64_decodeGroups_encode rest (fun x hx => h x (by simp [hx]))
    rw [b64encode] at ih
    have hlen : (a :: b :: c :: rest).length % 3 = rest.length % 3 := by
      simp [List.length_cons]
      omega
    rw [b64EncodeVals, List.map_cons, List.map_cons, List.map_cons, List.map_cons, hlen]
    simp only [List.cons_append]
    rw [b64_decode_group_full (a / 4) ((a % 4) * 16 + b / 16) ((b % 16) * 4 + c / 64)
      (c % 64) hv1 hv2 hv3 hv4, ih]
    have he1 : a / 4 * 4 + ((a % 4) * 16 + b / 16) / 16 = a := by omega
    have he2 : ((a % 4) * 16 + b / 16) % 16 * 16 + ((b % 16) * 4 + c / 64) / 4 = b := by
      omega
    have he3 : ((b % 16) * 4 + c / 64) % 4 * 64 + c % 64 = c := by omega
    simp only [Option.map_some']
    rw [he1, he2, he3]

/-- Decoding inverts encoding on any byte sequence: encoder output is
always correctly padded, so the decoder succeeds and returns exactly
the original bytes. -/
theorem b64_roundtrip (bs : List Nat) (h : ∀ x ∈ bs, x < 256) :
    b64decode (b64encode bs) = some bs := by
  rw [b64decode, b64_encode_filter bs h]
  exact b64_decodeGroups_encode bs h

/-- Every strict prefix of `p` that exists in `fs` is a directory (the
regime in which `mkdir(parents=True)` cannot fail). -/
def prefixesOkB (fs : FS) (p : AbsPath) : Bool :=
  (List.range p.length).all (fun k =>
    match fsLookup fs (p.take k) with
    | some n => kindIsDir n.kind
    | none => true)

/-- The node at `p`, if any, is a regular file (the regime in which
`open("w+")` cannot fail). -/
def fileOrAbsentB (fs : FS) (p : AbsPath) : Bool :=
  match fsLookup fs p with
  | some n => kindIsFile n.kind
  | none => true

theorem kindIsDir_eq (k : NodeKind) : kindIsDir k = true ↔ k = NodeKind.dir := by
  cases k <;> simp [kindIsDir]

theorem kindIsFile_eq (k : NodeKind) : kindIsFile k = true ↔ ∃ d, k = NodeKind.file d := by
  cases k <;> simp [kindIsFile]

theorem prefixesOk_spec (fs : FS) (p : AbsPath) (h : prefixesOkB fs p = true) :
    ∀ k, k < p.length → ∀ n, fsLookup fs (p.take k) = some n → n.kind = NodeKind.dir := by
  intro k hk n hn
  have := List.all_eq_true.mp h k (List.mem_range.mpr hk)
  rw [hn] at this
  exact (kindIsDir_eq n.kind).mp this

theorem goodPathB_take (p : AbsPath) (k : Nat) (h : goodPathB p = true) :
    goodPathB (p.take k) = true := by
  rw [goodPathB, List.all_eq_true] at h ⊢
  exact fun x hx => h x (List.Sublist.subset (List.take_sublist k p) hx)

theorem mem_fsInsert (fs : FS) (p : AbsPath) (n : Node) (e : AbsPath × Node)
    (h : e ∈ fsInsert fs p n) : e = (p, n) ∨ e ∈ fs := by
  rcases List.mem_cons.mp h with h1 | h2
  · exact Or.inl h1
  · exact Or.inr (List.mem_of_mem_filter h2)

theorem noSymlinksB_insert (fs : FS) (p : AbsPath) (n : Node)
    (hn : noSymlinksB fs = true) (hk : kindIsSymlink n.kind = false) :
    noSymlinksB (fsInsert fs p n) = true := by
  rw [noSymlinksB, List.all_eq_true]
  intro e he
  rcases mem_fsInsert fs p n e he with h1 | h2
  · subst h1; simpa using hk
  · exact List.all_eq_true.mp hn e h2

theorem take_dropLast_eq (p : AbsPath) (k : Nat) (hk : k ≤ p.length - 1) :
    p.dropLast.take k = p.take k := by
  rw [List.dropLast_eq_take, List.take_take]
  congr 1
  omega

theorem mkdirUpTo_all_dirs (fs : FS) (p : AbsPath)
    (hn : noSymlinksB fs = true) (hg : goodPathB p = true) :
    ∀ j, j ≤ p.length →
      (∀ k, k ≤ j → ∃ n, fsLookup fs (p.take k) = some n ∧ n.kind = NodeKind.dir) →
      mkdirUpTo fs p j = some fs := by
  intro j
  induction j with
  | zero =>
    intro _ h
    obtain ⟨n, hn1, hn2⟩ := h 0 (Nat.le_refl 0)
    rw [mkdirUpTo, mkdirOne,
      statFollow_no_symlinks fs hn [] (by rfl)]
    rw [List.take_zero] at hn1
    simp [hn1, hn2, kindIsDir]
  | succ k ih =>
    intro hj h
    rw [mkdirUpTo, ih (by omega) (fun m hm => h m (by omega))]
    obtain ⟨n, hn1, hn2⟩ := h (k + 1) (Nat.le_refl _)
    rw [Option.some_bind, mkdirOne,
      statFollow_no_symlinks fs hn (p.take (k + 1)) (goodPathB_take p (k + 1) hg)]
    simp [hn1, hn2, kindIsDir]

theorem mkdirUpTo_build (fs : FS) (p : AbsPath) (hn : noSymlinksB fs = true)
    (hg : goodPathB p = true)
    (hpre : ∀ k, k ≤ p.length → ∀ n, fsLookup fs (p.take k) = some n → n.kind = NodeKind.dir) :
    ∀ j, j ≤ p.length → ∃ fs2,
      mkdirUpTo fs p j = some fs2 ∧
      noSymlinksB fs2 = true ∧
      (∀ q, fsLookup fs2 q = fsLookup fs q ∨
        (fsLookup fs q = none ∧ fsLookup fs2 q = some defaultDirNode ∧
          ∃ k, k ≤ j ∧ q = p.take k)) ∧
      (∀ k, k ≤ j → ∃ n, fsLookup fs2 (p.take k) = some n ∧ n.kind = NodeKind.dir) := by
  intro j
  induction j with
  | zero =>
    intro _
    rw [mkdirUpTo, mkdirOne, statFollow_no_symlinks fs hn [] (by rfl)]
    cases hl : fsLookup fs [] with
    | some n =>
      have hd : n.kind = NodeKind.dir := hpre 0 (Nat.zero_le _) n (by simpa using hl)
      refine ⟨fs, by simp [hd, kindIsDir], hn, fun q => Or.inl rfl, ?_⟩
      intro k hk
      obtain rfl : k = 0 := Nat.le_zero.mp hk
      exact ⟨n, by simpa using hl, hd⟩
    | none =>
      refine ⟨fsInsert fs [] defaultDirNode, rfl,
        noSymlinksB_insert fs [] defaultDirNode hn rfl, ?_, ?_⟩
      · intro q
        by_cases hq : q = ([] : AbsPath)
        · subst hq
          exact Or.inr ⟨hl, fsLookup_insert_self fs [] defaultDirNode,
            0, Nat.le_refl 0, by simp⟩
        · exact Or.inl (fsLookup_insert_ne fs [] q defaultDirNode hq)
      · intro k hk
        obtain rfl : k = 0 := Nat.le_zero.mp hk
        exact ⟨defaultDirNode, by simpa using fsLookup_insert_self fs [] defaultDirNode, rfl⟩
  | succ j ih =>
    intro hj
    obtain ⟨fs2, hup, hn2, hpres, hdirs⟩ := ih (by omega)
    rw [mkdirUpTo, hup, Option.some_bind, mkdirOne,
      statFollow_no_symlinks fs2 hn2 (p.take (j + 1)) (goodPathB_take p (j + 1) hg)]
    have hlen_take : (p.take (j + 1)).length = j + 1 := by
      rw [List.length_take]; omega
    rcases hpres (p.take (j + 1)) with heq | ⟨_, hsome, _⟩
    · rw [heq]
      cases hl : fsLookup fs (p.take (j + 1)) with
      | some n =>
        have hd : n.kind = NodeKind.dir := hpre (j + 1) hj n hl
        refine ⟨fs2, by simp [hd, kindIsDir], hn2, ?_, ?_⟩
        · intro q
          rcases hpres q with h1 | ⟨h1, h2, k, hk, hq⟩
          · exact Or.inl h1
          · exact Or.inr ⟨h1, h2, k, by omega, hq⟩
        · intro k hk
          rcases Nat.lt_or_ge k (j + 1) with hlt | hge
          · exact hdirs k (by omega)
          · obtain rfl : k = j + 1 := by omega
            exact ⟨n, by rw [heq, hl], hd⟩
      | none =>
        refine ⟨fsInsert fs2 (p.take (j + 1)) defaultDirNode, rfl,
          noSymlinksB_insert fs2 (p.take (j + 1)) defaultDirNode hn2 rfl, ?_, ?_⟩
        · intro q
          by_cases hq : q = p.take (j + 1)
          · subst hq
            exact Or.inr ⟨hl, fsLookup_insert_self fs2 _ defaultDirNode,
              j + 1, Nat.le_refl _, rfl⟩
          · rw [fsLookup_insert_ne fs2 _ q defaultDirNode hq]
            rcases hpres q with h1 | ⟨h1, h2, k, hk, hqk⟩
            · exact Or.inl h1
            · exact Or.inr ⟨h1, h2, k, by omega, hqk⟩
        · intro k hk
          rcases Nat.lt_or_ge k (j + 1) with hlt | hge
          · obtain ⟨n, hn3, hn4⟩ := hdirs k (by omega)
            have hne : p.take k ≠ p.take (j + 1) := by
              intro hcontra
              have h5 : (p.take k).length = k := by rw [List.length_take]; omega
              rw [hcontra, hlen_take] at h5
              omega
            exact ⟨n, by rw [fsLookup_insert_ne fs2 _ _ defaultDirNode hne]; exact hn3, hn4⟩
          · obtain rfl : k = j + 1 := by omega
            exact ⟨defaultDirNode, fsLookup_insert_self fs2 _ defaultDirNode, rfl⟩
    · rw [hsome]
      refine ⟨fs2, rfl, hn2, ?_, ?_⟩
      · intro q
        rcases hpres q with h1 | ⟨h1, h2, k, hk, hq⟩
        · exact Or.inl h1
        · exact Or.inr ⟨h1, h2, k, by omega, hq⟩
      · intro k hk
        rcases Nat.lt_or_ge k (j + 1) with hlt | hge
        · exact hdirs k (by omega)
        · obtain rfl : k = j + 1 := by omega
          exact ⟨defaultDirNode, hsome, rfl⟩

theorem write_build (fs : FS) (full : AbsPath) (d : FileData)
    (hn : noSymlinksB fs = true) (hgf : goodPathB full = true) (hne : full ≠ [])
    (hpre : prefixesOkB fs full = true) (hfa : fileOrAbsentB fs full = true) :
    ∃ fsm nd,
      mkdirParents fs full.dropLast = some fsm ∧
      writeFile fsm full d = some (fsInsert fsm full nd) ∧
      nd.kind = NodeKind.file d ∧
      noSymlinksB (fsInsert fsm full nd) = true ∧
      fsLookup (fsInsert fsm full nd) full = some nd ∧
      mkdirParents (fsInsert fsm full nd) full.dropLast = some (fsInsert fsm full nd) ∧
      writeFile (fsInsert fsm full nd) full d = some (fsInsert fsm full nd) := by
  have hplen : full.dropLast.length = full.length - 1 := by rw [List.length_dropLast]
  have hfull_pos : 0 < full.length := List.length_pos.mpr hne
  have hgp : goodPathB full.dropLast = true := goodPathB_dropLast full hgf
  have hpre2 : ∀ k, k ≤ full.dropLast.length → ∀ n,
      fsLookup fs (full.dropLast.take k) = some n → n.kind = NodeKind.dir := by
    intro k hk n hn3
    rw [take_dropLast_eq full k (by omega)] at hn3
    exact prefixesOk_spec fs full hpre k (by omega) n hn3
  obtain ⟨fsm, hup, hnm, hpres, hdirs⟩ :=
    mkdirUpTo_build fs full.dropLast hn hgp hpre2 full.dropLast.length (Nat.le_refl _)
  have hmk : mkdirParents fs full.dropLast = some fsm := by rw [mkdirParents]; exact hup
  have htake_ne : ∀ k, k ≤ full.dropLast.length → full.dropLast.take k ≠ full := by
    intro k hk hcontra
    have h5 : (full.dropLast.take k).length = k := by
      rw [List.length_take]; omega
    rw [hcontra] at h5
    omega
  have hlookf : fsLookup fsm full = fsLookup fs full := by
    rcases hpres full with h1 | ⟨_, _, k, hk, hq⟩
    · exact h1
    · exact absurd hq.symm (htake_ne k hk)
  have hres : resolveAbs fsm full = full := resolveAbs_good fsm hnm full hgf
  have hmk_again : ∀ nd : Node, kindIsSymlink nd.kind = false →
      mkdirParents (fsInsert fsm full nd) full.dropLast = some (fsInsert fsm full nd) := by
    intro nd hnd
    rw [mkdirParents]
    refine mkdirUpTo_all_dirs (fsInsert fsm full nd) full.dropLast
      (noSymlinksB_insert fsm full nd hnm hnd) hgp full.dropLast.length (Nat.le_refl _) ?_
    intro k hk
    obtain ⟨n2, hn4, hn5⟩ := hdirs k hk
    exact ⟨n2, by
      rw [fsLookup_insert_ne fsm full (full.dropLast.take k) nd (htake_ne k hk)]
      exact hn4, hn5⟩
  cases hlf : fsLookup fs full with
  | some n0 =>
    have hforms : kindIsFile n0.kind = true := by
      simp only [fileOrAbsentB, hlf] at hfa
      exact hfa
    obtain ⟨d0, hd0⟩ := (kindIsFile_eq n0.kind).mp hforms
    refine ⟨fsm, ⟨NodeKind.file d, n0.mode, n0.uid⟩, hmk, ?_, rfl, ?_, ?_, ?_, ?_⟩
    · simp only [writeFile, hres, hlookf, hlf, hd0]
    · exact noSymlinksB_insert fsm full _ hnm rfl
    · exact fsLookup_insert_self fsm full _
    · exact hmk_again _ rfl
    · have hn1 : noSymlinksB (fsInsert fsm full ⟨NodeKind.file d, n0.mode, n0.uid⟩) = true :=
        noSymlinksB_insert fsm full _ hnm rfl
      simp only [writeFile,
        resolveAbs_good (fsInsert fsm full ⟨NodeKind.file d, n0.mode, n0.uid⟩) hn1 full hgf,
        fsLookup_insert_self fsm full ⟨NodeKind.file d, n0.mode, n0.uid⟩,
        fsInsert_insert]
  | none =>
    refine ⟨fsm, ⟨NodeKind.file d, defaultFileMode, 0⟩, hmk, ?_, rfl, ?_, ?_, ?_, ?_⟩
    · simp only [writeFile, hres, hlookf, hlf]
    · exact noSymlinksB_insert fsm full _ hnm rfl
    · exact fsLookup_insert_self fsm full _
    · exact hmk_again _ rfl
    · have hn1 : noSymlinksB (fsInsert fsm full ⟨NodeKind.file d, defaultFileMode, 0⟩) = true :=
        noSymlinksB_insert fsm full _ hnm rfl
      simp only [writeFile,
        resolveAbs_good (fsInsert fsm full ⟨NodeKind.file d, defaultFileMode, 0⟩) hn1 full hgf,
        fsLookup_insert_self fsm full ⟨NodeKind.file d, defaultFileMode, 0⟩,
        fsInsert_insert]

/-- Substring test used to show a message does not mention a path. -/
def strContains (hay needle : String) : Bool :=
  (List.range (hay.data.length + 1)).any (fun k => needle.data.isPrefixOf (hay.data.drop k))

/-- The file data the create/update handler will write for a request
body: `contents` wins over `base64_contents`, mirroring the if/elif in
the handler; base64 text is decoded before writing, and `none` also
covers base64 text whose decoding raises. -/
def payloadData (body : RequestBody) : Option FileData :=
  match body.contents with
  | some s => some (FileData.text s)
  | none =>
    match body.base64_contents with
    | some b => (b64decode b.data).map FileData.bytes
    | none => none

/-- Concrete filesystem for witnesses: `/r` is the root directory and
holds one file `/r/foo.txt`. -/
def fsW : FS :=
  [([], ⟨NodeKind.dir, 0o40755, 0⟩),
   (["r"], ⟨NodeKind.dir, 0o40755, 0⟩),
   (["r", "foo.txt"], ⟨NodeKind.file (FileData.text "hello"), 0o100644, 1000⟩)]

def rootW : AbsPath := ["r"]

def pwW : Nat → String := fun _ => "user"

theorem outsideRoot_false_cases (root full : AbsPath) (h : outsideRoot root full = false) :
    full = root ∨ (full.take root.length = root ∧ root.length < full.length) := by
  rw [outsideRoot, decide_eq_false_iff_not] at h
  push_neg at h
  by_cases hf : full = root
  · exact Or.inl hf
  · exact Or.inr ((mem_pyParents_iff root full).mp (h hf))

/-- C1: a client path whose joined-and-resolved form is neither the
root nor strictly below it is answered with 403 by all four operations
(GET, POST, PUT, DELETE), and the filesystem returned by the mutating
handlers is the one they were given; the GET handler performs no
mutation by construction (it returns only a response). -/
theorem c1_outside_root_no_op (pw : Nat → String) (fs : FS) (root : AbsPath)
    (method : Method) (body : RequestBody) (p : String)
    (h : outsideRoot root (resolvePathFrom fs root p) = true) :
    list_files pw fs root p =
      some ⟨403, RespBody.message
        ("Cannot access paths that are outside of the root directory: " ++ p)⟩ ∧
    create_or_update_file fs root method p body =
      some (⟨403, RespBody.message
        ("Cannot access paths that are outside of the root directory: " ++ p)⟩, fs) ∧
    delete_file fs root p =
      some (⟨403, RespBody.message
        ("Cannot delete paths that are outside of the root directory: " ++ p)⟩, fs) := by
  refine ⟨?_, ?_, ?_⟩
  · simp [list_files, h]
  · simp [create_or_update_file, h]
  · simp [delete_file, h]

theorem c1_outside_root_no_op_witness :
    outsideRoot rootW (resolvePathFrom fsW rootW "..") = true ∧
    list_files pwW fsW rootW ".." =
      some ⟨403, RespBody.message
        "Cannot access paths that are outside of the root directory: .."⟩ ∧
    create_or_update_file fsW rootW Method.POST ".." ⟨some "x", none⟩ =
      some (⟨403, RespBody.message
        "Cannot access paths that are outside of the root directory: .."⟩, fsW) ∧
    delete_file fsW rootW ".." =
      some (⟨403, RespBody.message
        "Cannot delete paths that are outside of the root directory: .."⟩, fsW) := by
  have h := c1_outside_root_no_op pwW fsW rootW Method.POST ⟨some "x", none⟩ ".."
    (by decide)
  refine ⟨by decide, ?_, ?_, ?_⟩
  · rw [h.1]; decide
  · rw [h.2.1]; decide
  · rw [h.2.2]; decide

/-- C2: the confinement test applied to the resolved join of root and
client path accepts exactly when the result equals the root or the root
is a proper ancestor component-wise (a prefix of the component list
that is strictly shorter); a sibling whose name merely extends the
root's last component as a string is rejected. -/
theorem c2_confinement_componentwise :
    (∀ (fs : FS) (root : AbsPath) (p : String),
      outsideRoot root (resolvePathFrom fs root p) = false ↔
        (resolvePathFrom fs root p = root ∨
          ((resolvePathFrom fs root p).take root.length = root ∧
            root.length < (resolvePathFrom fs root p).length))) ∧
    (outsideRoot ["root"] ["root-evil"] = true ∧
      List.isPrefixOf "/root".data "/root-evil".data = true) := by
  refine ⟨?_, by decide, by decide⟩
  · intro fs root p
    rw [outsideRoot, decide_eq_false_iff_not, mem_pyParents_iff]
    constructor
    · intro h
      by_cases hf : resolvePathFrom fs root p = root
      · exact Or.inl hf
      · push_neg at h
        exact Or.inr (h hf)
    · intro h hcontra
      rcases h with h1 | h1
      · exact hcontra.1 h1
      · exact hcontra.2 h1

/-- C4: a POST to a confined path that already exists is answered with
400 and the AlreadyExists message, and the filesystem is returned
untouched. -/
theorem c4_post_existing_unchanged (fs : FS) (root : AbsPath) (p : String)
    (body : RequestBody)
    (hin : outsideRoot root (resolvePathFrom fs root p) = false)
    (hex : pyExists fs (resolvePathFrom fs root p) = true) :
    create_or_update_file fs root Method.POST p body =
      some (⟨400, RespBody.message
        ("Path already exists. If you want to override, please use PUT instead: " ++ p)⟩,
        fs) := by
  simp [create_or_update_file, hin, hex]

theorem c4_post_existing_unchanged_witness :
    outsideRoot rootW (resolvePathFrom fsW rootW "foo.txt") = false ∧
    pyExists fsW (resolvePathFrom fsW rootW "foo.txt") = true ∧
    create_or_update_file fsW rootW Method.POST "foo.txt" ⟨some "other", none⟩ =
      some (⟨400, RespBody.message
        "Path already exists. If you want to override, please use PUT instead: foo.txt"⟩,
        fsW) := by
  have h := c4_post_existing_unchanged fsW rootW "foo.txt" ⟨some "other", none⟩
    (by decide) (by decide)
  refine ⟨by decide, by decide, ?_⟩
  rw [h]; decide

/-- Filesystem exercising the permission formatting: `/r/f` has
permission bits `007`, `/r/g` has `644`. -/
def fsPerm : FS :=
  [([], ⟨NodeKind.dir, 0o40755, 0⟩),
   (["r"], ⟨NodeKind.dir, 0o40755, 0⟩),
   (["r", "f"], ⟨NodeKind.file (FileData.bytes []), 0o100007, 7⟩),
   (["r", "g"], ⟨NodeKind.file (FileData.text "hi"), 0o100644, 7⟩)]

/-- C8: the listing metadata does come from each entry's own stat, but
`oct(mode & 0o777)[-3:]` is not the 3-digit octal of the low 9 mode
bits: for permission bits `007` it produces `"0o7"` (the claimed
`"007"` never appears), while `644` happens to format correctly. -/
theorem c8_permissions_octal_code_bug :
    list_files (fun _ => "alice") fsPerm ["r"] "" =
      some ⟨200, RespBody.dirListing
        [⟨"f", "alice", 0, "0o7", "-------rwx"⟩,
         ⟨"g", "alice", 2, "644", "-rw-r--r--"⟩]⟩ ∧
    "0o7" ≠ "007" := by
  exact ⟨by decide, by decide⟩

/-- C3 counterexample: a request supplying BOTH `contents` and
`base64_contents` violates "exactly one must be supplied", yet the
handler accepts it with 200 and writes the text contents — it does not
fail with 400 and it does mutate the filesystem. -/
theorem c3_both_fields_counterexample :
    create_or_update_file fsW rootW Method.POST "bar.txt" ⟨some "hi", some "AA=="⟩ =
      some (⟨200, RespBody.message "Created file bar.txt"⟩,
        fsInsert fsW ["r", "bar.txt"] ⟨NodeKind.file (FileData.text "hi"), 0o100644, 0⟩) ∧
    fsInsert fsW ["r", "bar.txt"] ⟨NodeKind.file (FileData.text "hi"), 0o100644, 0⟩ ≠ fsW := by
  exact ⟨by decide, by decide⟩

/-- C3 (amended): when NEITHER `contents` nor `base64_contents` is
supplied, a create/update request that reaches payload validation
(confined, and not stopped by the POST already-exists check) fails with
400 BadPayload and the filesystem is returned untouched — in
particular no parent directory is created and nothing is written. -/
theorem c3_missing_payload_rejected (fs : FS) (root : AbsPath) (method : Method)
    (p : String) (body : RequestBody)
    (hc : body.contents = none) (hb : body.base64_contents = none)
    (hin : outsideRoot root (resolvePathFrom fs root p) = false)
    (hex : ¬(method = Method.POST ∧ pyExists fs (resolvePathFrom fs root p) = true)) :
    create_or_update_file fs root method p body =
      some (⟨400, RespBody.message "No file contents specified"⟩, fs) := by
  simp [create_or_update_file, hin, hex, hc, hb]

theorem c3_missing_payload_rejected_witness :
    create_or_update_file fsW rootW Method.PUT "bar.txt" ⟨none, none⟩ =
      some (⟨400, RespBody.message "No file contents specified"⟩, fsW) := by
  have h := c3_missing_payload_rejected fsW rootW Method.PUT "bar.txt" ⟨none, none⟩
    rfl rfl (by decide) (by decide)
  rw [h]

/-- C9 counterexample: the BadPayload error response's message is the
constant "No file contents specified"; for the client path "bar.txt"
it does not interpolate (or even contain) that path. -/
theorem c9_badpayload_message_has_no_path :
    create_or_update_file fsW rootW Method.POST "bar.txt" ⟨none, none⟩ =
      some (⟨400, RespBody.message "No file contents specified"⟩, fsW) ∧
    strContains "No file contents specified" "bar.txt" = false := by
  exact ⟨by decide, by decide⟩

/-- C9 (amended): every path-bearing error response (OutsideRoot 403,
NotFound 404, AlreadyExists 400) carries a message that is a fixed
template with the original client-supplied path string appended — the
resolved path never appears — while the BadPayload 400 message is the
constant "No file contents specified" with no path in it. -/
theorem c9_error_messages (pw : Nat → String) (fs : FS) (root : AbsPath)
    (method : Method) (body : RequestBody) (p : String) :
    (outsideRoot root (resolvePathFrom fs root p) = true →
      list_files pw fs root p = some ⟨403, RespBody.message
        ("Cannot access paths that are outside of the root directory: " ++ p)⟩ ∧
      create_or_update_file fs root method p body = some (⟨403, RespBody.message
        ("Cannot access paths that are outside of the root directory: " ++ p)⟩, fs) ∧
      delete_file fs root p = some (⟨403, RespBody.message
        ("Cannot delete paths that are outside of the root directory: " ++ p)⟩, fs)) ∧
    (outsideRoot root (resolvePathFrom fs root p) = false →
      pyExists fs (resolvePathFrom fs root p) = false →
      list_files pw fs root p = some ⟨404, RespBody.message
        ("Could not find file path " ++ p)⟩ ∧
      delete_file fs root p = some (⟨404, RespBody.message
        ("Could not find file path " ++ p)⟩, fs)) ∧
    (outsideRoot root (resolvePathFrom fs root p) = false →
      pyExists fs (resolvePathFrom fs root p) = true →
      create_or_update_file fs root Method.POST p body = some (⟨400, RespBody.message
        ("Path already exists. If you want to override, please use PUT instead: " ++ p)⟩,
        fs)) ∧
    (outsideRoot root (resolvePathFrom fs root p) = false →
      ¬(method = Method.POST ∧ pyExists fs (resolvePathFrom fs root p) = true) →
      body.contents = none → body.base64_contents = none →
      create_or_update_file fs root method p body = some (⟨400, RespBody.message
        "No file contents specified"⟩, fs)) := by
  refine ⟨fun h => ⟨?_, ?_, ?_⟩, fun h1 h2 => ⟨?_, ?_⟩, fun h1 h2 => ?_,
    fun h1 h2 h3 h4 => ?_⟩
  · simp [list_files, h]
  · simp [create_or_update_file, h]
  · simp [delete_file, h]
  · simp [list_files, h1, h2]
  · simp [delete_file, h1, h2]
  · simp [create_or_update_file, h1, h2]
  · simp [create_or_update_file, h1, h2, h3, h4]

theorem c9_error_messages_witness :
    list_files pwW fsW rootW ".." = some ⟨403, RespBody.message
      "Cannot access paths that are outside of the root directory: .."⟩ ∧
    list_files pwW fsW rootW "nope.txt" = some ⟨404, RespBody.message
      "Could not find file path nope.txt"⟩ ∧
    create_or_update_file fsW rootW Method.POST "foo.txt" ⟨some "x", none⟩ =
      some (⟨400, RespBody.message
        "Path already exists. If you want to override, please use PUT instead: foo.txt"⟩,
        fsW) ∧
    create_or_update_file fsW rootW Method.PUT "new.txt" ⟨none, none⟩ =
      some (⟨400, RespBody.message "No file contents specified"⟩, fsW) := by
  refine ⟨?_, ?_, ?_, ?_⟩
  · have h := (c9_error_messages pwW fsW rootW Method.POST ⟨some "x", none⟩ "..").1
      (by decide)
    rw [h.1]; decide
  · have h := (c9_error_messages pwW fsW rootW Method.POST ⟨some "x", none⟩
      "nope.txt").2.1 (by decide) (by decide)
    rw [h.1]; decide
  · have h := (c9_error_messages pwW fsW rootW Method.POST ⟨some "x", none⟩
      "foo.txt").2.2.1 (by decide) (by decide)
    rw [h]; decide
  · have h := (c9_error_messages pwW fsW rootW Method.PUT ⟨none, none⟩
      "new.txt").2.2.2 (by decide) (by decide) rfl rfl
    rw [h]

theorem fsLookup_filter_out (fs : FS) (root q : AbsPath) (h : root.isPrefixOf q = true) :
    fsLookup (fs.filter (fun e => !(root.isPrefixOf e.1))) q = none := by
  induction fs with
  | nil => rfl
  | cons e fs ih =>
    rw [List.filter_cons]
    by_cases he : root.isPrefixOf e.1 = true
    · simp only [he, Bool.not_true, Bool.false_eq_true, if_false]
      exact ih
    · have hb : (!(root.isPrefixOf e.1)) = true := by
        cases hx : root.isPrefixOf e.1
        · rfl
        · exact absurd hx he
      rw [if_pos hb, fsLookup_cons]
      have hne : e.1 ≠ q := by
        intro hh
        exact he (by rw [hh]; exact h)
      rw [if_neg hne]
      exact ih

/-- C10: a DELETE of the empty client path resolves to the root itself,
passes confinement through the equality branch, and recursively removes
the root directory with everything below it, answering 200 with the
DeletedDirectory message — nothing protects the root. -/
theorem c10_delete_root_removes_everything (fs : FS) (root : AbsPath) (nR : Node)
    (hroot : fsLookup fs root = some nR) (hdir : nR.kind = NodeKind.dir)
    (hstab : resolveAbs fs root = root) :
    delete_file fs root "" =
      some (⟨200, RespBody.message ("Deleted directory " ++ "")⟩,
        fs.filter (fun e => !(root.isPrefixOf e.1))) ∧
    ∀ q, root.isPrefixOf q = true →
      fsLookup (fs.filter (fun e => !(root.isPrefixOf e.1))) q = none := by
  constructor
  · obtain ⟨k0, m0, u0⟩ := nR
    simp only at hdir
    subst hdir
    have hsplit : splitClientPath "" = [] := rfl
    have hfull : resolvePathFrom fs root "" = root := by
      rw [resolvePathFrom, hsplit, resolveGo_nil]
    have hsf : statFollow fs root = some ⟨NodeKind.dir, m0, u0⟩ := by
      rw [statFollow, hstab, hroot]
    have hout : outsideRoot root root = false := by
      simp [outsideRoot]
    have hexists : pyExists fs root = true := by rw [pyExists, hsf]; rfl
    have hlink : rawIsSymlink fs root [] = false := by
      rw [rawIsSymlink]
      have hraw : rawLeaf fs root [] = root := rfl
      rw [hraw, hroot]
      rfl
    have hisdir : pyIsDir fs root = true := by rw [pyIsDir, hsf]; rfl
    have hrm : rmtree fs root = some (fs.filter (fun e => !(root.isPrefixOf e.1))) := by
      rw [rmtree, hroot]
      rfl
    simp [delete_file, hsplit, hfull, hout, hexists, hlink, hisdir, hrm]
  · intro q hq
    exact fsLookup_filter_out fs root q hq

/-- Filesystem for the C10 witness: the root `/r` holds one file. -/
def fsDel : FS :=
  [([], ⟨NodeKind.dir, 0o40755, 0⟩),
   (["r"], ⟨NodeKind.dir, 0o40755, 0⟩),
   (["r", "a"], ⟨NodeKind.file (FileData.text "x"), 0o100644, 0⟩)]

theorem c10_delete_root_removes_everything_witness :
    delete_file fsDel ["r"] "" =
      some (⟨200, RespBody.message "Deleted directory "⟩,
        [([], ⟨NodeKind.dir, 0o40755, 0⟩)]) ∧
    fsLookup (fsDel.filter (fun e => !((["r"] : AbsPath).isPrefixOf e.1))) ["r", "a"] =
      none := by
  have h := c10_delete_root_removes_everything fsDel ["r"] ⟨NodeKind.dir, 0o40755, 0⟩
    (by decide) rfl (by decide)
  refine ⟨?_, h.2 ["r", "a"] (by decide)⟩
  rw [h.1]
  decide

/-- Filesystem with a symlink `/r/l` to the regular file `/r/f`. -/
def fsLink : FS :=
  [([], ⟨NodeKind.dir, 0o40755, 0⟩),
   (["r"], ⟨NodeKind.dir, 0o40755, 0⟩),
   (["r", "f"], ⟨NodeKind.file (FileData.text "target"), 0o100644, 0⟩),
   (["r", "l"], ⟨NodeKind.symlink ["r", "f"], 0o120777, 0⟩)]

/-- Filesystem with a symlink `/r/l` to the directory `/r/d`. -/
def fsLinkDir : FS :=
  [([], ⟨NodeKind.dir, 0o40755, 0⟩),
   (["r"], ⟨NodeKind.dir, 0o40755, 0⟩),
   (["r", "d"], ⟨NodeKind.dir, 0o40755, 0⟩),
   (["r", "d", "x"], ⟨NodeKind.file (FileData.text "inner"), 0o100644, 0⟩),
   (["r", "l"], ⟨NodeKind.symlink ["r", "d"], 0o120777, 0⟩)]

/-- C7 counterexample: `/r/l` is a confined symlink whose resolved
target (the directory `/r/d`) exists, yet DELETE does not remove the
link: `is_dir()` follows the link, so the handler calls
`shutil.rmtree` on the raw link path, which refuses symlinks — the
request dies with an unhandled OSError (`none`, a 500) and deletes
nothing. -/
theorem c7_symlink_to_directory_counterexample :
    fsLookup fsLinkDir ["r", "l"] = some ⟨NodeKind.symlink ["r", "d"], 0o120777, 0⟩ ∧
    pyExists fsLinkDir (resolvePathFrom fsLinkDir ["r"] "l") = true ∧
    delete_file fsLinkDir ["r"] "l" = none := by
  exact ⟨by decide, by decide, by decide⟩

theorem rawLeaf_concat (fs : FS) (root : AbsPath) (cs0 : List String) (l : String)
    (hgl : goodComp l = true) :
    rawLeaf fs root (cs0 ++ [l]) = resolveGo fs maxSymlinkFuel root cs0 ++ [l] := by
  have hc : l ≠ "" ∧ l ≠ "." ∧ l ≠ ".." := by simpa [goodComp] using hgl
  simp only [rawLeaf, List.getLast?_concat, List.dropLast_concat]
  rw [if_neg (by tauto), if_neg hc.2.2]

/-- C7 (amended): deleting a confined symlink whose resolved target is
an existing regular file removes only the raw link entry — the target
file's node is untouched and still readable — and answers 200 with the
DeletedFile message.  (A symlink to a directory is NOT handled this
way: `is_dir()` follows the link, `shutil.rmtree` is called on the
link and raises, see the counterexample.) -/
theorem c7_delete_symlink_spares_target (fs : FS) (root : AbsPath) (p : String)
    (cs0 : List String) (l : String) (t : AbsPath) (lnode fnode : Node) (fd : FileData)
    (hsplit : splitClientPath p = cs0 ++ [l])
    (hgl : goodComp l = true)
    (hlink : fsLookup fs (resolveGo fs maxSymlinkFuel root cs0 ++ [l]) = some lnode)
    (hlk : lnode.kind = NodeKind.symlink t)
    (hin : outsideRoot root (resolvePathFrom fs root p) = false)
    (htgt : fsLookup fs (resolvePathFrom fs root p) = some fnode)
    (hfk : fnode.kind = NodeKind.file fd)
    (hstab1 : resolveAbs fs (resolvePathFrom fs root p) = resolvePathFrom fs root p)
    (hstab2 : resolveAbs fs (resolveGo fs maxSymlinkFuel root cs0 ++ [l]) =
      resolvePathFrom fs root p) :
    delete_file fs root p =
      some (⟨200, RespBody.message ("Deleted file " ++ p)⟩,
        fsRemove fs (resolveGo fs maxSymlinkFuel root cs0 ++ [l])) ∧
    fsLookup (fsRemove fs (resolveGo fs maxSymlinkFuel root cs0 ++ [l]))
      (resolvePathFrom fs root p) = some fnode ∧
    fsLookup (fsRemove fs (resolveGo fs maxSymlinkFuel root cs0 ++ [l]))
      (resolveGo fs maxSymlinkFuel root cs0 ++ [l]) = none := by
  obtain ⟨kl, ml, ul⟩ := lnode
  simp only at hlk
  subst hlk
  obtain ⟨kf, mf, uf⟩ := fnode
  simp only at hfk
  subst hfk
  have hne : resolvePathFrom fs root p ≠ resolveGo fs maxSymlinkFuel root cs0 ++ [l] := by
    intro hcontra
    rw [hcontra, hlink] at htgt
    simp at htgt
  refine ⟨?_, ?_, ?_⟩
  · have hraw := rawLeaf_concat fs root cs0 l hgl
    have hexists : pyExists fs (resolvePathFrom fs root p) = true := by
      rw [pyExists, statFollow, hstab1, htgt]
      rfl
    have hrl : rawIsSymlink fs root (cs0 ++ [l]) = true := by
      rw [rawIsSymlink, hraw, hlink]
      rfl
    have hnd : pyIsDir fs (resolveGo fs maxSymlinkFuel root cs0 ++ [l]) = false := by
      rw [pyIsDir, statFollow, hstab2, htgt]
      rfl
    simp [delete_file, hsplit, hin, hexists, hrl, hraw, hnd]
  · rw [fsLookup_remove, if_neg hne]
    exact htgt
  · rw [fsLookup_remove, if_pos rfl]

theorem c7_delete_symlink_spares_target_witness :
    delete_file fsLink ["r"] "l" =
      some (⟨200, RespBody.message ("Deleted file " ++ "l")⟩,
        fsRemove fsLink (resolveGo fsLink maxSymlinkFuel ["r"] [] ++ ["l"])) ∧
    fsLookup (fsRemove fsLink (resolveGo fsLink maxSymlinkFuel ["r"] [] ++ ["l"]))
      (resolvePathFrom fsLink ["r"] "l") =
      some ⟨NodeKind.file (FileData.text "target"), 0o100644, 0⟩ ∧
    fsLookup (fsRemove fsLink (resolveGo fsLink maxSymlinkFuel ["r"] [] ++ ["l"]))
      (resolveGo fsLink maxSymlinkFuel ["r"] [] ++ ["l"]) = none :=
  c7_delete_symlink_spares_target fsLink ["r"] "l" [] "l" ["r", "f"]
    ⟨NodeKind.symlink ["r", "f"], 0o120777, 0⟩
    ⟨NodeKind.file (FileData.text "target"), 0o100644, 0⟩ (FileData.text "target")
    (by decide) (by decide) (by decide) rfl (by decide) (by decide) rfl
    (by decide) (by decide)

theorem create_write_success (fs fsm fs1 : FS) (root : AbsPath) (method : Method)
    (p : String) (body : RequestBody) (d : FileData)
    (hin : outsideRoot root (resolvePathFrom fs root p) = false)
    (hnp : ¬(method = Method.POST ∧ pyExists fs (resolvePathFrom fs root p) = true))
    (hpd : payloadData body = some d)
    (hmk : mkdirParents fs (resolvePathFrom fs root p).dropLast = some fsm)
    (hwr : writeFile fsm (resolvePathFrom fs root p) d = some fs1) :
    create_or_update_file fs root method p body =
      some (⟨200, RespBody.message ("Created file " ++ p)⟩, fs1) := by
  cases hc : body.contents with
  | some s =>
    have hd : FileData.text s = d := by
      simp only [payloadData, hc] at hpd
      exact Option.some.inj hpd
    simp [create_or_update_file, hin, hnp, hc, hmk, hd, hwr]
  | none =>
    cases hb : body.base64_contents with
    | some b =>
      cases hdec : b64decode b.data with
      | none =>
        simp only [payloadData, hc, hb, hdec] at hpd
        exact absurd hpd (by simp)
      | some bb =>
        have hd : FileData.bytes bb = d := by
          simp only [payloadData, hc, hb, hdec, Option.map_some'] at hpd
          exact Option.some.inj hpd
        simp [create_or_update_file, hin, hnp, hc, hb, hdec, hmk, hd, hwr]
    | none =>
      simp only [payloadData, hc, hb] at hpd
      exact absurd hpd (by simp)

/-- C6: on a confined path that does not yet exist (with well-formed
prefixes), POSTing text contents `s` and then GETting the same path
answers 200 with `file_contents = s` (text is stored untransformed);
and POSTing the base64 encoding of a byte sequence stores exactly those
raw bytes in the file's node (base64 is decoded before writing). -/
theorem c6_roundtrip (pw : Nat → String) (fs : FS) (root : AbsPath) (p : String)
    (s : String) (bs : List Nat)
    (hn : noSymlinksB fs = true) (hgr : goodPathB root = true) (hr : root ≠ [])
    (hin : outsideRoot root (resolvePathFrom fs root p) = false)
    (hnew : fsLookup fs (resolvePathFrom fs root p) = none)
    (hpre : prefixesOkB fs (resolvePathFrom fs root p) = true)
    (hbytes : ∀ x ∈ bs, x < 256) :
    (∃ fs1, create_or_update_file fs root Method.POST p ⟨some s, none⟩ =
        some (⟨200, RespBody.message ("Created file " ++ p)⟩, fs1) ∧
      list_files pw fs1 root p = some ⟨200, RespBody.fileContents s⟩) ∧
    (∃ fs2 nd, create_or_update_file fs root Method.POST p
        ⟨none, some (String.mk (b64encode bs))⟩ =
        some (⟨200, RespBody.message ("Created file " ++ p)⟩, fs2) ∧
      fsLookup fs2 (resolvePathFrom fs root p) = some nd ∧
      nd.kind = NodeKind.file (FileData.bytes bs)) := by
  have hgf : goodPathB (resolvePathFrom fs root p) = true :=
    resolveGo_good_output fs hn maxSymlinkFuel (splitClientPath p) root hgr
  have hne : resolvePathFrom fs root p ≠ [] := by
    rcases outsideRoot_false_cases root (resolvePathFrom fs root p) hin with h1 | h1
    · rw [h1]; exact hr
    · intro hcontra
      rw [hcontra] at h1
      exact absurd h1.2 (by simp)
  have hfa : fileOrAbsentB fs (resolvePathFrom fs root p) = true := by
    simp only [fileOrAbsentB, hnew]
  have hpex : pyExists fs (resolvePathFrom fs root p) = false := by
    rw [pyExists, statFollow_no_symlinks fs hn _ hgf, hnew]
    rfl
  have hnp : ¬(Method.POST = Method.POST ∧
      pyExists fs (resolvePathFrom fs root p) = true) := by
    intro h
    rw [hpex] at h
    exact Bool.false_ne_true h.2
  constructor
  · obtain ⟨fsm, nd, hmk, hwr, hndk, hns1, hlook1, hmk2, hwr2⟩ :=
      write_build fs (resolvePathFrom fs root p) (FileData.text s) hn hgf hne hpre hfa
    refine ⟨fsInsert fsm (resolvePathFrom fs root p) nd, ?_, ?_⟩
    · exact create_write_success fs fsm _ root Method.POST p ⟨some s, none⟩
        (FileData.text s) hin hnp rfl hmk hwr
    · obtain ⟨kn, mn, un⟩ := nd
      simp only at hndk
      subst hndk
      have hfull1 : resolvePathFrom
          (fsInsert fsm (resolvePathFrom fs root p)
            ⟨NodeKind.file (FileData.text s), mn, un⟩) root p =
          resolvePathFrom fs root p :=
        resolveGo_fs_irrel _ fs hns1 hn maxSymlinkFuel (splitClientPath p) root
      have hsf1 : statFollow
          (fsInsert fsm (resolvePathFrom fs root p)
            ⟨NodeKind.file (FileData.text s), mn, un⟩)
          (resolvePathFrom fs root p) =
          some ⟨NodeKind.file (FileData.text s), mn, un⟩ := by
        rw [statFollow_no_symlinks _ hns1 _ hgf]
        exact hlook1
      have hex1 : pyExists
          (fsInsert fsm (resolvePathFrom fs root p)
            ⟨NodeKind.file (FileData.text s), mn, un⟩)
          (resolvePathFrom fs root p) = true := by
        rw [pyExists, hsf1]
        rfl
      have hdir1 : pyIsDir
          (fsInsert fsm (resolvePathFrom fs root p)
            ⟨NodeKind.file (FileData.text s), mn, un⟩)
          (resolvePathFrom fs root p) = false := by
        rw [pyIsDir, hsf1]
        rfl
      simp [list_files, hfull1, hin, hex1, hdir1, hsf1]
  · have hdata : (String.mk (b64encode bs)).data = b64encode bs := rfl
    obtain ⟨fsm, nd, hmk, hwr, hndk, hns1, hlook1, hmk2, hwr2⟩ :=
      write_build fs (resolvePathFrom fs root p) (FileData.bytes bs) hn hgf hne hpre hfa
    refine ⟨fsInsert fsm (resolvePathFrom fs root p) nd, nd, ?_, hlook1, hndk⟩
    refine create_write_success fs fsm _ root Method.POST p
      ⟨none, some (String.mk (b64encode bs))⟩ (FileData.bytes bs) hin hnp ?_ hmk hwr
    simp only [payloadData]
    rw [b64_roundtrip bs hbytes]
    rfl

theorem c6_roundtrip_witness :
    (∀ x ∈ ([0] : List Nat), x < 256) ∧
    ((∃ fs1, create_or_update_file fsW rootW Method.POST "doc.txt" ⟨some "hi", none⟩ =
        some (⟨200, RespBody.message ("Created file " ++ "doc.txt")⟩, fs1) ∧
      list_files pwW fs1 rootW "doc.txt" = some ⟨200, RespBody.fileContents "hi"⟩) ∧
    (∃ fs2 nd, create_or_update_file fsW rootW Method.POST "doc.txt"
        ⟨none, some (String.mk (b64encode [0]))⟩ =
        some (⟨200, RespBody.message ("Created file " ++ "doc.txt")⟩, fs2) ∧
      fsLookup fs2 (resolvePathFrom fsW rootW "doc.txt") = some nd ∧
      nd.kind = NodeKind.file (FileData.bytes [0]))) :=
  ⟨by decide,
    c6_roundtrip pwW fsW rootW "doc.txt" "hi" [0] (by decide) (by decide) (by decide)
      (by decide) (by decide) (by decide) (by decide)⟩
